import Mathlib

/-!
Verification of the hrreportapp dashboards (Streamlit + pandas).

Shallow embedding conventions:
* A pandas numeric cell is `Option ℚ`: `none` models a non-finite float
  (NaN from a missing CSV cell, or NaN/inf produced by arithmetic such as
  division by zero); `some q` models a finite value, with exact rational
  arithmetic standing in for float64 arithmetic.
* Column-wise pandas expressions (`df[a] + df[b]`, `df[a] / df[b]`, ...)
  operate element-wise and propagate NaN; they are modelled by the
  `op*` lifted operations below.
* `Series.sum()` / `Series.mean()` / `Series.notna()` / `value_counts()`
  skip missing values, exactly as modelled by `colSum` / `colMean` /
  `valueCounts`.
* Python's `round(x, n)` rounds half to even; modelled by `roundTo`.
* Presence of a column in an uploaded table is a table-level fact; it is
  modelled by boolean `has_*` flags alongside the row list.  Accessing an
  absent column in pandas raises `KeyError`; fallible computations return
  `Except String α`, the error carrying the missing column's name.
-/

/-- Element-wise addition of two numeric columns/cells, propagating
missing (NaN) values, as pandas `df[a] + df[b]` does. -/
def opAdd (a b : Option ℚ) : Option ℚ :=
  match a, b with
  | some x, some y => some (x + y)
  | _, _ => none

/-- Element-wise subtraction, propagating missing values. -/
def opSub (a b : Option ℚ) : Option ℚ :=
  match a, b with
  | some x, some y => some (x - y)
  | _, _ => none

/-- Element-wise multiplication, propagating missing values. -/
def opMul (a b : Option ℚ) : Option ℚ :=
  match a, b with
  | some x, some y => some (x * y)
  | _, _ => none

/-- Element-wise division.  A zero divisor yields NaN/±inf in
pandas/numpy (no exception is raised); both non-finite outcomes are
modelled as `none`, and missing operands propagate. -/
def opDiv (a b : Option ℚ) : Option ℚ :=
  match a, b with
  | some x, some y => if y = 0 then none else some (x / y)
  | _, _ => none

/-- Subtraction on integer-valued cells (day counts), propagating
missing values (NaT). -/
def opSubInt (a b : Option ℤ) : Option ℤ :=
  match a, b with
  | some x, some y => some (x - y)
  | _, _ => none

/-- Cast an integer day-count cell to a numeric cell. -/
def intCell (a : Option ℤ) : Option ℚ :=
  a.map (fun v => (v : ℚ))

/-- Round half to even to the nearest integer, as Python's `round` does. -/
def roundHalfEven (x : ℚ) : ℤ :=
  let f := ⌊x⌋
  if x - f < 1/2 then f
  else if 1/2 < x - f then f + 1
  else if Even f then f else f + 1

/-- `roundTo p x` models Python's `round(x, p)` (half-to-even on the
scaled value). -/
def roundTo (p : ℕ) (x : ℚ) : ℚ :=
  (roundHalfEven (x * 10 ^ p) : ℚ) / 10 ^ p

/-- `round` applied to a possibly-NaN cell: `round(nan) = nan`. -/
def roundCell (p : ℕ) (a : Option ℚ) : Option ℚ :=
  a.map (roundTo p)

/-- `Series.sum()`: missing values are skipped; the sum of an empty or
all-missing column is 0. -/
def colSum (l : List (Option ℚ)) : ℚ :=
  (l.filterMap id).sum

/-- `Series.mean()`: missing values are skipped; an empty or all-missing
column yields NaN (`none`). -/
def colMean (l : List (Option ℚ)) : Option ℚ :=
  let vs := l.filterMap id
  if vs.length = 0 then none else some (vs.sum / vs.length)

/-- The distinct values of a list in order of first occurrence (the key
order of the pandas `value_counts` hash table). -/
def firstOccKeys : List String → List String
  | [] => []
  | v :: vs => v :: (firstOccKeys vs).filter (fun u => u ≠ v)

/-- Stable insertion into a list sorted by descending count: the new
element `x` is placed before the first element whose count is not
greater than `x`'s, so earlier-inserted elements win ties. -/
def insertDescBy (x : String × ℕ) : List (String × ℕ) → List (String × ℕ)
  | [] => [x]
  | y :: ys => if y.2 > x.2 then y :: insertDescBy x ys else x :: y :: ys

/-- Stable sort by descending count (ties keep their original order). -/
def sortDescBy : List (String × ℕ) → List (String × ℕ)
  | [] => []
  | x :: xs => insertDescBy x (sortDescBy xs)

/-- `Series.value_counts()`: drop missing values, count occurrences of
each distinct value (keys in first-occurrence order), then sort by count
descending with ties kept in first-occurrence order. -/
def valueCounts (l : List (Option String)) : List (String × ℕ) :=
  let vs := l.filterMap id
  sortDescBy ((firstOccKeys vs).map (fun v => (v, vs.count v)))

/-! ## HR report page (`app.py`) -/

/-- One row of an uploaded HR CSV.  Cells of columns the page reads;
`Option` marks a possibly-missing cell.  `exit_date` only matters through
`notna()`, so its cell is kept as raw text. -/
structure HRRow where
  department : Option String
  pos : Option String
  gender : Option String
  exit_date : Option String
  turnover_type : Option String
  turnover_reason : Option String
  employee_nr : Option String
  hours_worked : Option ℚ
  salary_per_hour : Option ℚ
  absenteeism_days : Option ℚ
deriving DecidableEq, Repr

/-- An uploaded HR table: which optional columns are present, plus the
rows.  (For a column whose flag is `false`, the corresponding cells are
irrelevant.) -/
structure HRTable where
  has_department : Bool
  has_pos : Bool
  has_gender : Bool
  has_exit_date : Bool
  has_turnover_type : Bool
  has_turnover_reason : Bool
  has_employee_nr : Bool
  has_hours_worked : Bool
  has_salary_per_hour : Bool
  has_absenteeism_days : Bool
  rows : List HRRow
deriving DecidableEq, Repr

/-- The items the HR page renders, in order.  The first eight
constructors are the outputs `app.py` can actually emit; the last three
name the ranking tables claimed by the spec (§4.3: top-5 turnover
reasons, top-5/bottom-5 employees by Hours Worked) so that their absence
from the page's output is statable. -/
inductive HROutput where
  | metricTotalEmployees (n : ℕ)
  | chartDepartment (fc : List (String × ℕ))
  | chartPos (fc : List (String × ℕ))
  | chartGender (fc : List (String × ℕ))
  | metricTurnoverRate (r : Option ℚ)
  | chartTurnoverType (fc : List (String × ℕ))
  | metricAvgOutputProxy (v : Option ℚ)
  | metricAvgAbsenteeism (v : Option ℚ)
  | tableTopTurnoverReasons (fc : List (String × ℕ))
  | tableTopEmployeesByHours (rows : List (String × ℚ))
  | tableBottomEmployeesByHours (rows : List (String × ℚ))
deriving DecidableEq, Repr

/-- `round((exits / total_employees) * 100, 1)` from `app.py` lines
59–61: `exits` is the count of non-missing `Exit Date` cells and
`total_employees = len(df)`.  When the table is empty this is a numpy
`0/0`: no exception is raised and the result is NaN (`none`). -/
def hrTurnoverRate (rows : List HRRow) : Option ℚ :=
  let exits : ℕ := rows.countP (fun r => r.exit_date.isSome)
  let total : ℕ := rows.length
  if total = 0 then none
  else some (roundTo 1 (((exits : ℚ) / (total : ℚ)) * 100))

/-- The f-string `f"{turnover_rate}%"` of `app.py` line 62: a NaN rate
renders as `"nan%"` (numeric formatting of finite values is idealized as
`toString`). -/
def fmtPct (r : Option ℚ) : String :=
  match r with
  | none => "nan%"
  | some q => toString q ++ "%"

/-- Result of running the HR page body: the source rows (which the page
never mutates), the appended `Output Proxy` column when it is created
(`none` at the table level = column absent), and the rendered outputs. -/
structure HRPageResult where
  rows : List HRRow
  outputProxyCol : Option (List (Option ℚ))
  outputs : List HROutput
deriving DecidableEq, Repr

/-- The metric/chart pipeline of `app.py` (lines 30–86), translated
block by block: total employees; Department/Position/Gender frequency
charts when present; turnover rate and Turnover Type chart when `Exit
Date` (and `Turnover Type`) are present; `Output Proxy = Hours Worked ×
Salary Per Hour` appended with its rounded mean when both columns are
present; rounded mean absenteeism when present. -/
def hrReportPage (t : HRTable) : HRPageResult :=
  let o1 := [HROutput.metricTotalEmployees t.rows.length]
  let o2 := if t.has_department then
      [HROutput.chartDepartment (valueCounts (t.rows.map (fun r => r.department)))] else []
  let o3 := if t.has_pos then
      [HROutput.chartPos (valueCounts (t.rows.map (fun r => r.pos)))] else []
  let o4 := if t.has_gender then
      [HROutput.chartGender (valueCounts (t.rows.map (fun r => r.gender)))] else []
  let o5 := if t.has_exit_date then
      [HROutput.metricTurnoverRate (hrTurnoverRate t.rows)] ++
      (if t.has_turnover_type then
        [HROutput.chartTurnoverType (valueCounts (t.rows.map (fun r => r.turnover_type)))]
       else [])
    else []
  let proxy : Option (List (Option ℚ)) :=
    if t.has_hours_worked && t.has_salary_per_hour then
      some (t.rows.map (fun r => opMul r.hours_worked r.salary_per_hour))
    else none
  let o6 := match proxy with
    | some col => [HROutput.metricAvgOutputProxy (roundCell 2 (colMean col))]
    | none => []
  let o7 := if t.has_absenteeism_days then
      [HROutput.metricAvgAbsenteeism
        (roundCell 2 (colMean (t.rows.map (fun r => r.absenteeism_days))))] else []
  ⟨t.rows, proxy, o1 ++ o2 ++ o3 ++ o4 ++ o5 ++ o6 ++ o7⟩

/-- Is this output one of the ranking tables claimed in §4.3 (top-5
turnover reasons, top/bottom-5 employees by Hours Worked)? -/
def isRankingOutput : HROutput → Bool
  | HROutput.tableTopTurnoverReasons _ => true
  | HROutput.tableTopEmployeesByHours _ => true
  | HROutput.tableBottomEmployeesByHours _ => true
  | _ => false

/-! ## Financial dashboard (`pages/1_financialdashboard.py`) -/

/-- One row of an uploaded financial CSV, restricted to the nine numeric
columns `calculate_financial_metrics` reads (the `date` column is only
parsed and displayed by `main`, never used in the derivations). -/
structure FinRow where
  revenue : Option ℚ
  cogs : Option ℚ
  salaries : Option ℚ
  rent : Option ℚ
  marketing : Option ℚ
  utilities : Option ℚ
  interest_paid : Option ℚ
  investment_losses : Option ℚ
  legal_settlements : Option ℚ
deriving DecidableEq, Repr

/-- A financial row together with the seven columns appended by
`calculate_financial_metrics`. -/
structure FinRowD extends FinRow where
  gross_profit : Option ℚ
  operating_expenses : Option ℚ
  non_operating_expenses : Option ℚ
  total_expenses : Option ℚ
  net_profit : Option ℚ
  gross_profit_margin : Option ℚ
  net_profit_margin : Option ℚ
deriving DecidableEq, Repr

/-- The row-wise body of `calculate_financial_metrics` (lines 46–54),
with each derived column computed from the row's cells and the
previously derived columns, in the source's order. -/
def deriveFinRow (r : FinRow) : FinRowD :=
  let gross_profit := opSub r.revenue r.cogs
  let operating_expenses := opAdd (opAdd (opAdd r.salaries r.rent) r.marketing) r.utilities
  let non_operating_expenses :=
    opAdd (opAdd r.interest_paid r.investment_losses) r.legal_settlements
  let total_expenses := opAdd operating_expenses non_operating_expenses
  let net_profit := opSub gross_profit total_expenses
  let gross_profit_margin := opMul (opDiv gross_profit r.revenue) (some 100)
  let net_profit_margin := opMul (opDiv net_profit r.revenue) (some 100)
  { r with
    gross_profit := gross_profit
    operating_expenses := operating_expenses
    non_operating_expenses := non_operating_expenses
    total_expenses := total_expenses
    net_profit := net_profit
    gross_profit_margin := gross_profit_margin
    net_profit_margin := net_profit_margin }

/-- `calculate_financial_metrics`: the column assignments of lines 46–54
act element-wise, i.e. row by row. -/
def calculate_financial_metrics (df : List FinRow) : List FinRowD :=
  df.map deriveFinRow

/-! ## Construction metrics page (`pages/2_metrcispage.py`) -/

/-- A date-column cell: `raw` is the text as loaded by `read_csv`;
`dt` is a `datetime64` cell after `pd.to_datetime(..., errors="coerce")`
(`none` = `NaT`), carried as a day number so that datetime subtraction
followed by `.dt.days` is plain integer subtraction. -/
inductive DateCell where
  | raw (s : String)
  | dt (d : Option ℤ)
deriving DecidableEq, Repr

/-- Day number of a civil date (proleptic Gregorian, `y ≥ 1`), counted
from 0000-03-01, so that differences of day numbers equal differences of
the corresponding pandas datetimes in days. -/
def daysFromCivil (y m d : ℕ) : ℕ :=
  let y2 := if m ≤ 2 then y - 1 else y
  let era := y2 / 400
  let yoe := y2 % 400
  let mp := (m + 9) % 12
  let doy := (153 * mp + 2) / 5 + d - 1
  let doe := yoe * 365 + yoe / 4 - yoe / 100 + doy
  era * 146097 + doe

/-- `pd.to_datetime(cell, errors="coerce")` on one text cell, restricted
to the ISO `YYYY-MM-DD` layout the repository's sample data uses: a
parseable date becomes its day number, anything else becomes `NaT`
(`none`). -/
def parseDate (s : String) : Option ℤ :=
  match s.splitOn "-" with
  | [ys, ms, ds] =>
    match ys.toNat?, ms.toNat?, ds.toNat? with
    | some y, some m, some d =>
      if 1 ≤ y ∧ 1 ≤ m ∧ m ≤ 12 ∧ 1 ≤ d ∧ d ≤ 31 then
        some (daysFromCivil y m d : ℤ)
      else none
    | _, _, _ => none
  | _ => none

/-- Coerce one date cell: a raw text cell is parsed (unparseable → NaT);
an already-coerced cell is unchanged. -/
def toDatetimeCoerce (c : DateCell) : DateCell :=
  match c with
  | DateCell.raw s => DateCell.dt (parseDate s)
  | DateCell.dt d => DateCell.dt d

/-- The day number of a coerced date cell (`none` for `NaT`; a raw cell
never survives coercion, and is treated as missing). -/
def dateDays (c : DateCell) : Option ℤ :=
  match c with
  | DateCell.dt d => d
  | DateCell.raw _ => none

/-- One row of an uploaded construction CSV, restricted to the columns
the page reads. -/
structure ConsRow where
  project_name : String
  project_status : String
  start_date : DateCell
  end_date : DateCell
  actual_end_date : DateCell
  planned_budget : Option ℚ
  actual_budget : Option ℚ
  labor_hours_planned : Option ℚ
  labor_hours_actual : Option ℚ
  client_satisfaction_score : Option ℚ
  project_difficulty : String
deriving DecidableEq, Repr

/-- An uploaded construction table: presence flags for the optional
columns the metric computation touches, plus the rows. -/
structure ConsTable where
  has_start_date : Bool
  has_end_date : Bool
  has_actual_end_date : Bool
  has_planned_budget : Bool
  has_actual_budget : Bool
  has_labor_hours_planned : Bool
  has_labor_hours_actual : Bool
  has_client_satisfaction_score : Bool
  rows : List ConsRow
deriving DecidableEq, Repr

/-- Lines 59–62: `for col in date_columns: if col in df.columns:
df[col] = pd.to_datetime(df[col], errors="coerce")` — an in-place
overwrite of each present date column. -/
def coerceDates (t : ConsTable) (r : ConsRow) : ConsRow :=
  { r with
    start_date := if t.has_start_date then toDatetimeCoerce r.start_date else r.start_date
    end_date := if t.has_end_date then toDatetimeCoerce r.end_date else r.end_date
    actual_end_date :=
      if t.has_actual_end_date then toDatetimeCoerce r.actual_end_date else r.actual_end_date }

/-- `.replace(0, 1)` on an integer cell: an exact 0 becomes 1; other
values, including NaN, are unchanged. -/
def replaceZeroOneInt (a : Option ℤ) : Option ℤ :=
  a.map (fun v => if v = 0 then 1 else v)

/-- `.replace(0, 1)` on a numeric cell. -/
def replaceZeroOne (a : Option ℚ) : Option ℚ :=
  a.map (fun v => if v = 0 then 1 else v)

/-- A Completed-subset row with the five columns appended by lines 72–78. -/
structure CompRow extends ConsRow where
  planned_duration : Option ℤ
  actual_duration : Option ℤ
  schedule_variance : Option ℚ
  labor_productivity : Option ℚ
  budget_variance : Option ℚ
deriving DecidableEq, Repr

/-- The row-wise body of lines 72–78 of `calculate_construction_metrics`:
durations from the coerced date columns, then the three variance /
productivity columns, each divisor passed through `.replace(0, 1)`. -/
def deriveCompletedRow (r : ConsRow) : CompRow :=
  let planned_duration := opSubInt (dateDays r.end_date) (dateDays r.start_date)
  let actual_duration := opSubInt (dateDays r.actual_end_date) (dateDays r.start_date)
  let schedule_variance :=
    opMul (opDiv (intCell (opSubInt planned_duration actual_duration))
                 (intCell (replaceZeroOneInt planned_duration))) (some 100)
  let labor_productivity :=
    opMul (opDiv r.labor_hours_planned (replaceZeroOne r.labor_hours_actual)) (some 100)
  let budget_variance :=
    opMul (opDiv (opSub r.actual_budget r.planned_budget)
                 (replaceZeroOne r.planned_budget)) (some 100)
  { r with
    planned_duration := planned_duration
    actual_duration := actual_duration
    schedule_variance := schedule_variance
    labor_productivity := labor_productivity
    budget_variance := budget_variance }

/-- What `calculate_construction_metrics` returns on success: the full
table (with its date columns coerced in place), the Completed subset
with the five appended metric columns, and the In Progress and Confirmed
subsets. -/
structure ConsResult where
  df : List ConsRow
  completed : List CompRow
  inProgress : List ConsRow
  confirmed : List ConsRow
deriving DecidableEq, Repr

/-- Each pandas column access on the Completed subset raises `KeyError`
when the column is absent; this helper reproduces the order in which
lines 72–78 first touch each column, returning the name of the first
column pandas would fail on (or `none` when all are present). -/
def firstMissingCol (t : ConsTable) : Option String :=
  if !t.has_end_date then some "end_date"
  else if !t.has_start_date then some "start_date"
  else if !t.has_actual_end_date then some "actual_end_date"
  else if !t.has_labor_hours_planned then some "labor_hours_planned"
  else if !t.has_labor_hours_actual then some "labor_hours_actual"
  else if !t.has_actual_budget then some "actual_budget"
  else if !t.has_planned_budget then some "planned_budget"
  else none

/-- `calculate_construction_metrics` (lines 55–80): coerce the present
date columns in place, filter the three status subsets, and — only when
the Completed subset is nonempty — compute its five metric columns,
failing with the first missing column's `KeyError` as pandas would. -/
def calculate_construction_metrics (t : ConsTable) : Except String ConsResult :=
  let df := t.rows.map (coerceDates t)
  let completed := df.filter (fun r => r.project_status == "Completed")
  let in_progress := df.filter (fun r => r.project_status == "In Progress")
  let confirmed := df.filter (fun r => r.project_status == "Confirmed")
  match completed.isEmpty with
  | true => Except.ok ⟨df, [], in_progress, confirmed⟩
  | false =>
    match firstMissingCol t with
    | some c => Except.error c
    | none => Except.ok ⟨df, completed.map deriveCompletedRow, in_progress, confirmed⟩

/-- Did an `Except` computation succeed? -/
def exceptOk : Except String ConsResult → Bool
  | Except.ok _ => true
  | Except.error _ => false

/-- The full-table component of a construction result (`[]` when the
computation failed). -/
def resultDf : Except String ConsResult → List ConsRow
  | Except.ok r => r.df
  | Except.error _ => []

/-! ## Sample rows (taken from the pages' own sample data) -/

/-- First row of the financial page's `sample_data` (lines 275–286). -/
def sampleFinRow : FinRow :=
  { revenue := some 125000, cogs := some 75000, salaries := some 25000,
    rent := some 8000, marketing := some 5000, utilities := some 1200,
    interest_paid := some 1500, investment_losses := some 2000,
    legal_settlements := some 0 }

/-! ## C5 -/

/-- A two-row HR table with one exit, used as a concrete witness input
(Exit Date present). -/
def sampleHRTable : HRTable :=
  { has_department := true, has_pos := false, has_gender := false,
    has_exit_date := true, has_turnover_type := false,
    has_turnover_reason := false, has_employee_nr := false,
    has_hours_worked := false, has_salary_per_hour := false,
    has_absenteeism_days := false,
    rows := [
      { department := some "Eng", pos := none, gender := none,
        exit_date := some "2024-05-01", turnover_type := some "Voluntary",
        turnover_reason := some "Pay", employee_nr := some "E1",
        hours_worked := some 160, salary_per_hour := some 25,
        absenteeism_days := some 2 },
      { department := some "Ops", pos := none, gender := none,
        exit_date := none, turnover_type := none,
        turnover_reason := none, employee_nr := some "E2",
        hours_worked := some 150, salary_per_hour := some 30,
        absenteeism_days := some 0 }] }

/-! ## C4 -/

/-- A zero-row HR table whose `Exit Date` column is present. -/
def emptyHRTable : HRTable :=
  { has_department := false, has_pos := false, has_gender := false,
    has_exit_date := true, has_turnover_type := false,
    has_turnover_reason := false, has_employee_nr := false,
    has_hours_worked := false, has_salary_per_hour := false,
    has_absenteeism_days := false, rows := [] }

/-! ## C10 -/

/-- An HR table carrying `Turnover Reason`, `Hours Worked` and
`EmployeeNr` columns (plus `Exit Date`), at which the spec claims
ranking tables are produced. -/
def hrTableWithReasons : HRTable :=
  { has_department := false, has_pos := false, has_gender := false,
    has_exit_date := true, has_turnover_type := false,
    has_turnover_reason := true, has_employee_nr := true,
    has_hours_worked := true, has_salary_per_hour := true,
    has_absenteeism_days := false,
    rows := [
      { department := none, pos := none, gender := none,
        exit_date := some "2024-02-01", turnover_type := none,
        turnover_reason := some "Pay", employee_nr := some "E1",
        hours_worked := some 160, salary_per_hour := some 25,
        absenteeism_days := none },
      { department := none, pos := none, gender := none,
        exit_date := none, turnover_type := none,
        turnover_reason := some "Relocation", employee_nr := some "E2",
        hours_worked := some 120, salary_per_hour := some 30,
        absenteeism_days := none }] }

/-! ## C9 -/

/-- A construction table (all optional columns present) whose only row is
In Progress with an unparseable `start_date` text. -/
def consTableRawDates : ConsTable :=
  { has_start_date := true, has_end_date := true, has_actual_end_date := true,
    has_planned_budget := true, has_actual_budget := true,
    has_labor_hours_planned := true, has_labor_hours_actual := true,
    has_client_satisfaction_score := true,
    rows := [
      { project_name := "Residential Complex", project_status := "In Progress",
        start_date := DateCell.raw "notadate", end_date := DateCell.raw "2024-11-01",
        actual_end_date := DateCell.raw "", planned_budget := some 1800000,
        actual_budget := some 0, labor_hours_planned := some 4000,
        labor_hours_actual := some 3200, client_satisfaction_score := some 0,
        project_difficulty := "Medium" }] }

/-- The successful result of the construction computation on
`consTableRawDates`. -/
def consResRaw : ConsResult :=
  match calculate_construction_metrics consTableRawDates with
  | Except.ok r => r
  | Except.error _ => ⟨[], [], [], []⟩

/-- A Completed construction row whose planned duration is zero
(`start_date = end_date`), finished five days late. -/
def consRowCompleted : ConsRow :=
  { project_name := "Office Tower Renovation", project_status := "Completed",
    start_date := DateCell.raw "2024-01-15", end_date := DateCell.raw "2024-01-15",
    actual_end_date := DateCell.raw "2024-01-20", planned_budget := some 2500000,
    actual_budget := some 2650000, labor_hours_planned := some 5000,
    labor_hours_actual := some 5400, client_satisfaction_score := some 4.7,
    project_difficulty := "High" }

/-- A construction table with all optional columns and one Completed row. -/
def consTableCompleted : ConsTable :=
  { has_start_date := true, has_end_date := true, has_actual_end_date := true,
    has_planned_budget := true, has_actual_budget := true,
    has_labor_hours_planned := true, has_labor_hours_actual := true,
    has_client_satisfaction_score := true, rows := [consRowCompleted] }

/-- The successful result of the construction computation on
`consTableCompleted`. -/
def consResCompleted : ConsResult :=
  match calculate_construction_metrics consTableCompleted with
  | Except.ok r => r
  | Except.error _ => ⟨[], [], [], []⟩

/-! ## C6 -/

/-- A construction table with one row of each status Completed,
In Progress, Confirmed, plus a row with the unrecognized status
"Cancelled". -/
def consTableMixed : ConsTable :=
  { has_start_date := true, has_end_date := true, has_actual_end_date := true,
    has_planned_budget := true, has_actual_budget := true,
    has_labor_hours_planned := true, has_labor_hours_actual := true,
    has_client_satisfaction_score := true,
    rows := [consRowCompleted,
      { consRowCompleted with project_name := "Residential Complex"
                              project_status := "In Progress" },
      { consRowCompleted with project_name := "Bridge Repair"
                              project_status := "Confirmed" },
      { consRowCompleted with project_name := "Warehouse"
                              project_status := "Cancelled" }] }

/-- The successful result of the construction computation on
`consTableMixed`. -/
def consResMixed : ConsResult :=
  match calculate_construction_metrics consTableMixed with
  | Except.ok r => r
  | Except.error _ => ⟨[], [], [], []⟩

/-! ## C3 -/

/-- A construction table with one Completed row in which the optional
`labor_hours_actual` column is absent (all other optional columns
present). -/
def consTableMissingLabor : ConsTable :=
  { has_start_date := true, has_end_date := true, has_actual_end_date := true,
    has_planned_budget := true, has_actual_budget := true,
    has_labor_hours_planned := true, has_labor_hours_actual := false,
    has_client_satisfaction_score := true, rows := [consRowCompleted] }

/-! ## C7 -/

/-- A financial row whose `salaries` cell is missing while `rent` is 5:
the row-wise `operating_expenses` becomes NaN, while the column sums
skip the missing value. -/
def finRowMissingCell : FinRow :=
  { revenue := some 0, cogs := some 0, salaries := none,
    rent := some 5, marketing := some 0, utilities := some 0,
    interest_paid := some 0, investment_losses := some 0,
    legal_settlements := some 0 }

/-! ## Theorems -/

/-! ## C1 -/

/-- C1: for every financial table, `calculate_financial_metrics` computes
the seven derived columns row-wise and in the stated order — each output
row satisfies `gross_profit = revenue - cogs`,
`operating_expenses = salaries + rent + marketing + utilities`,
`non_operating_expenses = interest_paid + investment_losses +
legal_settlements`, `total_expenses = operating_expenses +
non_operating_expenses`, `net_profit = gross_profit - total_expenses`,
`gross_profit_margin = gross_profit / revenue * 100` and
`net_profit_margin = net_profit / revenue * 100`, the later columns
referring to the earlier derived ones. -/
theorem C1_financial_derived_columns (df : List FinRow) (r : FinRowD)
    (h : r ∈ calculate_financial_metrics df) :
    r.gross_profit = opSub r.revenue r.cogs ∧
    r.operating_expenses = opAdd (opAdd (opAdd r.salaries r.rent) r.marketing) r.utilities ∧
    r.non_operating_expenses =
      opAdd (opAdd r.interest_paid r.investment_losses) r.legal_settlements ∧
    r.total_expenses = opAdd r.operating_expenses r.non_operating_expenses ∧
    r.net_profit = opSub r.gross_profit r.total_expenses ∧
    r.gross_profit_margin = opMul (opDiv r.gross_profit r.revenue) (some 100) ∧
    r.net_profit_margin = opMul (opDiv r.net_profit r.revenue) (some 100) := by
  rcases List.mem_map.1 h with ⟨r0, _, rfl⟩
  exact ⟨rfl, rfl, rfl, rfl, rfl, rfl, rfl⟩

/-- Witness for C1 at the financial page's own sample row. -/
theorem C1_financial_derived_columns_witness :
    deriveFinRow sampleFinRow ∈ calculate_financial_metrics [sampleFinRow] ∧
    (deriveFinRow sampleFinRow).net_profit =
      opSub (deriveFinRow sampleFinRow).gross_profit
        (deriveFinRow sampleFinRow).total_expenses :=
  ⟨List.mem_singleton.2 rfl,
   (C1_financial_derived_columns [sampleFinRow] (deriveFinRow sampleFinRow)
     (List.mem_singleton.2 rfl)).2.2.2.2.1⟩

/-! ## Frequency-count lemmas (for C8) -/

/-- Membership in a stable descending insertion. -/
theorem mem_insertDescBy {z x : String × ℕ} {l : List (String × ℕ)} :
    z ∈ insertDescBy x l ↔ z = x ∨ z ∈ l := by
  induction l with
  | nil => simp [insertDescBy]
  | cons y ys ih =>
    simp only [insertDescBy]
    split_ifs with h
    · simp only [List.mem_cons, ih]
      tauto
    · simp only [List.mem_cons]

/-- `insertDescBy` permutes the element onto the list. -/
theorem insertDescBy_perm (x : String × ℕ) (l : List (String × ℕ)) :
    (insertDescBy x l).Perm (x :: l) := by
  induction l with
  | nil => simp [insertDescBy]
  | cons y ys ih =>
    simp only [insertDescBy]
    split_ifs with h
    · exact (ih.cons y).trans (List.Perm.swap x y ys)
    · exact List.Perm.refl _

/-- `sortDescBy` is a permutation of its input. -/
theorem sortDescBy_perm (l : List (String × ℕ)) : (sortDescBy l).Perm l := by
  induction l with
  | nil => exact List.Perm.refl _
  | cons x xs ih => exact (insertDescBy_perm x (sortDescBy xs)).trans (ih.cons x)

/-- Inserting into a count-descending list keeps it count-descending. -/
theorem pairwise_insertDescBy {x : String × ℕ} {l : List (String × ℕ)}
    (h : List.Pairwise (fun a b => b.2 ≤ a.2) l) :
    List.Pairwise (fun a b => b.2 ≤ a.2) (insertDescBy x l) := by
  induction l with
  | nil => simp [insertDescBy]
  | cons y ys ih =>
    rcases List.pairwise_cons.1 h with ⟨hy, hys⟩
    simp only [insertDescBy]
    split_ifs with hgt
    · refine List.pairwise_cons.2 ⟨?_, ih hys⟩
      intro z hz
      rcases mem_insertDescBy.1 hz with rfl | hz2
      · exact le_of_lt hgt
      · exact hy z hz2
    · refine List.pairwise_cons.2 ⟨?_, h⟩
      intro z hz
      rcases List.mem_cons.1 hz with rfl | hz2
      · exact le_of_not_lt hgt
      · exact le_trans (hy z hz2) (le_of_not_lt hgt)

/-- The output of `sortDescBy` is count-descending. -/
theorem pairwise_sortDescBy (l : List (String × ℕ)) :
    List.Pairwise (fun a b => b.2 ≤ a.2) (sortDescBy l) := by
  induction l with
  | nil => simp [sortDescBy]
  | cons x xs ih => exact pairwise_insertDescBy ih

/-- `firstOccKeys` has the same members as its input. -/
theorem mem_firstOccKeys {a : String} {l : List String} :
    a ∈ firstOccKeys l ↔ a ∈ l := by
  induction l with
  | nil => simp [firstOccKeys]
  | cons v vs ih =>
    simp only [firstOccKeys, List.mem_cons, List.mem_filter, ih,
      decide_eq_true_eq]
    tauto

/-- `firstOccKeys` has no duplicates. -/
theorem nodup_firstOccKeys (l : List String) : (firstOccKeys l).Nodup := by
  induction l with
  | nil => simp [firstOccKeys]
  | cons v vs ih =>
    refine List.nodup_cons.2 ⟨?_, ih.filter _⟩
    simp [List.mem_filter]

/-- `firstOccKeys` spans the same finite set of values as its input. -/
theorem firstOccKeys_toFinset (l : List String) :
    (firstOccKeys l).toFinset = l.toFinset := by
  apply Finset.ext
  intro a
  simp [List.mem_toFinset, mem_firstOccKeys]

/-- `firstOccKeys` is a permutation of the deduplicated input. -/
theorem firstOccKeys_perm_dedup (l : List String) :
    (firstOccKeys l).Perm l.dedup := by
  apply List.perm_iff_count.2
  intro a
  by_cases h : a ∈ l
  · rw [List.count_eq_one_of_mem (nodup_firstOccKeys l) (mem_firstOccKeys.2 h),
      List.count_eq_one_of_mem l.nodup_dedup (List.mem_dedup.2 h)]
  · rw [List.count_eq_zero.2 (fun hc => h (mem_firstOccKeys.1 hc)),
      List.count_eq_zero.2 (fun hc => h (List.mem_dedup.1 hc))]

/-- Summing each distinct value's multiplicity recovers the list length. -/
theorem sum_counts_firstOccKeys (l : List String) :
    ((firstOccKeys l).map (fun v => l.count v)).sum = l.length := by
  rw [← List.sum_toFinset _ (nodup_firstOccKeys l), firstOccKeys_toFinset]
  simp

/-- In `firstOccKeys l`, keys are listed in strictly increasing order of
the position of their first occurrence in `l`. -/
theorem pairwise_indexOf_firstOccKeys (l : List String) :
    List.Pairwise (fun u v => l.indexOf u < l.indexOf v) (firstOccKeys l) := by
  induction l with
  | nil => simp [firstOccKeys]
  | cons v vs ih =>
    simp only [firstOccKeys]
    refine List.pairwise_cons.2 ⟨?_, ?_⟩
    · intro u hu
      have hne : u ≠ v := by simpa using (List.mem_filter.1 hu).2
      rw [List.indexOf_cons_self, List.indexOf_cons_ne vs hne.symm]
      exact Nat.succ_pos _
    · have hpw : ((firstOccKeys vs).filter (fun u => u ≠ v)).Pairwise
          (fun u w => vs.indexOf u < vs.indexOf w) :=
        ih.sublist (List.filter_sublist (firstOccKeys vs))
      refine List.Pairwise.imp_of_mem ?_ hpw
      intro a b ha hb hab
      have hna : a ≠ v := by simpa using (List.mem_filter.1 ha).2
      have hnb : b ≠ v := by simpa using (List.mem_filter.1 hb).2
      rw [List.indexOf_cons_ne vs hna.symm, List.indexOf_cons_ne vs hnb.symm]
      omega

/-- Stable insertion: inserting an element that came earlier (in the
sense of an arbitrary precedence `S`) than everything in a sorted list
keeps the list sorted by descending count with `S` deciding ties. -/
theorem insertDescBy_stable {S : (String × ℕ) → (String × ℕ) → Prop} (x : String × ℕ) :
    ∀ {l : List (String × ℕ)},
    List.Pairwise (fun a b => b.2 < a.2 ∨ (b.2 = a.2 ∧ S a b)) l →
    (∀ y ∈ l, S x y) →
    List.Pairwise (fun a b => b.2 < a.2 ∨ (b.2 = a.2 ∧ S a b)) (insertDescBy x l) := by
  intro l
  induction l with
  | nil =>
    intro _ _
    simp [insertDescBy]
  | cons y ys ih =>
    intro hl hx
    rcases List.pairwise_cons.1 hl with ⟨hy, hys⟩
    simp only [insertDescBy]
    split_ifs with hgt
    · refine List.pairwise_cons.2
        ⟨?_, ih hys (fun z hz => hx z (List.mem_cons_of_mem y hz))⟩
      intro z hz
      rcases mem_insertDescBy.1 hz with rfl | hz2
      · exact Or.inl hgt
      · exact hy z hz2
    · refine List.pairwise_cons.2 ⟨?_, hl⟩
      intro z hz
      have hyx : y.2 ≤ x.2 := Nat.le_of_not_lt hgt
      rcases List.mem_cons.1 hz with rfl | hz2
      · rcases Nat.lt_or_ge z.2 x.2 with hlt | hge
        · exact Or.inl hlt
        · exact Or.inr ⟨Nat.le_antisymm hyx hge, hx z (List.mem_cons_self z ys)⟩
      · rcases hy z hz2 with hlt | ⟨heq, _⟩
        · exact Or.inl (Nat.lt_of_lt_of_le hlt hyx)
        · rcases Nat.lt_or_eq_of_le hyx with hlt2 | heq2
          · exact Or.inl (heq ▸ hlt2)
          · exact Or.inr ⟨heq.trans heq2, hx z (List.mem_cons_of_mem y hz2)⟩

/-- `sortDescBy` of a list whose elements appear in precedence order `S`
is sorted by descending count, with every tie decided by `S` — the sort
is stable. -/
theorem sortDescBy_stable {S : (String × ℕ) → (String × ℕ) → Prop}
    {l : List (String × ℕ)} (hl : List.Pairwise S l) :
    List.Pairwise (fun a b => b.2 < a.2 ∨ (b.2 = a.2 ∧ S a b)) (sortDescBy l) := by
  induction l with
  | nil => simp [sortDescBy]
  | cons x xs ih =>
    rcases List.pairwise_cons.1 hl with ⟨hx, hxs⟩
    exact insertDescBy_stable x (ih hxs)
      (fun y hy => hx y ((sortDescBy_perm xs).subset hy))

/-! ## C8 -/

/-- C8: for every table and column, `value_counts` maps each distinct
non-missing value to its number of occurrences (second conjunct), its
counts sum to the column's non-missing value count (first conjunct),
its keys are exactly the distinct non-missing values (third conjunct),
and it is ordered by descending count with ties in first-encountered
order: whenever one entry precedes another, either its count is strictly
greater, or the counts are equal and its key first occurs strictly
earlier in the column (fourth conjunct; the fifth restates the purely
count-descending order).  The Department scenario `["Eng","Eng","Ops"]`
yields `{Eng: 2, Ops: 1}` and the tie scenario `["A","B","A","B"]`
keeps "A" before "B". -/
theorem C8_frequency_count (l : List (Option String)) :
    ((valueCounts l).map Prod.snd).sum = (l.filterMap id).length ∧
    (∀ p ∈ valueCounts l, p.2 = (l.filterMap id).count p.1) ∧
    ((valueCounts l).map Prod.fst).Perm (l.filterMap id).dedup ∧
    List.Pairwise (fun a b => b.2 < a.2 ∨
      (b.2 = a.2 ∧ (l.filterMap id).indexOf a.1 < (l.filterMap id).indexOf b.1))
      (valueCounts l) ∧
    List.Pairwise (fun a b => b.2 ≤ a.2) (valueCounts l) ∧
    valueCounts [some "Eng", some "Eng", some "Ops"] = [("Eng", 2), ("Ops", 1)] ∧
    valueCounts [some "A", some "B", some "A", some "B"] = [("A", 2), ("B", 2)] := by
  refine ⟨?_, ?_, ?_, ?_, ?_, by decide, by decide⟩
  · show ((sortDescBy ((firstOccKeys (l.filterMap id)).map
      (fun v => (v, (l.filterMap id).count v)))).map Prod.snd).sum = (l.filterMap id).length
    rw [((sortDescBy_perm _).map Prod.snd).sum_eq, List.map_map]
    exact sum_counts_firstOccKeys (l.filterMap id)
  · intro p hp
    have hp2 : p ∈ (firstOccKeys (l.filterMap id)).map
        (fun v => (v, (l.filterMap id).count v)) :=
      ((sortDescBy_perm _).mem_iff).1 hp
    rcases List.mem_map.1 hp2 with ⟨v, _, rfl⟩
    rfl
  · have h3 : ((valueCounts l).map Prod.fst).Perm
        (((firstOccKeys (l.filterMap id)).map
          (fun v => (v, (l.filterMap id).count v))).map Prod.fst) :=
      (sortDescBy_perm _).map Prod.fst
    have e3 : ((firstOccKeys (l.filterMap id)).map
        (fun v => (v, (l.filterMap id).count v))).map Prod.fst
        = firstOccKeys (l.filterMap id) := by
      rw [List.map_map]
      exact List.map_id _
    exact (e3 ▸ h3).trans (firstOccKeys_perm_dedup (l.filterMap id))
  · show List.Pairwise _ (sortDescBy ((firstOccKeys (l.filterMap id)).map
      (fun v => (v, (l.filterMap id).count v))))
    apply sortDescBy_stable
    refine (List.pairwise_map).2 ?_
    exact pairwise_indexOf_firstOccKeys (l.filterMap id)
  · exact pairwise_sortDescBy _

/-- Witness for C8 at the spec's Scenario A input. -/
theorem C8_frequency_count_witness :
    ("Eng", 2) ∈ valueCounts [some "Eng", some "Eng", some "Ops"] ∧
    ("Eng", 2).2 = ([some "Eng", some "Eng", some "Ops"].filterMap id).count ("Eng", 2).1 :=
  ⟨by decide,
   (C8_frequency_count [some "Eng", some "Eng", some "Ops"]).2.1 ("Eng", 2) (by decide)⟩

/-! ## Rounding bounds (for C5) -/

/-- Half-to-even rounding never goes below the floor. -/
theorem floor_le_roundHalfEven (x : ℚ) : ⌊x⌋ ≤ roundHalfEven x := by
  simp only [roundHalfEven]
  split_ifs <;> omega

/-- Half-to-even rounding never goes above the ceiling. -/
theorem roundHalfEven_le_ceil (x : ℚ) : roundHalfEven x ≤ ⌈x⌉ := by
  simp only [roundHalfEven]
  split_ifs with h1 h2 h3
  · exact Int.floor_le_ceil x
  · have hx : (⌊x⌋ : ℚ) < x := by linarith
    have := Int.lt_ceil.2 hx
    omega
  · exact Int.floor_le_ceil x
  · have hx : (⌊x⌋ : ℚ) < x := by linarith
    have := Int.lt_ceil.2 hx
    omega

/-- `round(q, 1)` of a nonnegative value is nonnegative. -/
theorem roundTo1_nonneg {q : ℚ} (h : 0 ≤ q) : 0 ≤ roundTo 1 q := by
  have hz : (0 : ℤ) ≤ roundHalfEven (q * 10 ^ 1) :=
    le_trans (Int.floor_nonneg.2 (by nlinarith)) (floor_le_roundHalfEven _)
  have hq : (0 : ℚ) ≤ (roundHalfEven (q * 10 ^ 1) : ℚ) := by exact_mod_cast hz
  unfold roundTo
  exact div_nonneg hq (by norm_num)

/-- `round(q, 1)` of a value at most 100 is at most 100. -/
theorem roundTo1_le_100 {q : ℚ} (h : q ≤ 100) : roundTo 1 q ≤ 100 := by
  have hc : roundHalfEven (q * 10 ^ 1) ≤ 1000 := by
    refine le_trans (roundHalfEven_le_ceil _) (Int.ceil_le.2 ?_)
    push_cast
    nlinarith
  have hq : (roundHalfEven (q * 10 ^ 1) : ℚ) ≤ 1000 := by exact_mod_cast hc
  unfold roundTo
  norm_num at hq ⊢
  linarith

/-- C5: for an HR table with an `Exit Date` column and at least one row,
the page reports the turnover rate, the rate equals
`round((non-missing Exit Date count / total_employees) * 100, 1)`, and
any reported value lies in the closed interval `[0, 100]`. -/
theorem C5_turnover_rate_formula_and_bounds (t : HRTable)
    (hcol : t.has_exit_date = true) (hn : t.rows.length ≠ 0) :
    HROutput.metricTurnoverRate (hrTurnoverRate t.rows) ∈ (hrReportPage t).outputs ∧
    hrTurnoverRate t.rows =
      some (roundTo 1 (((t.rows.countP (fun r => r.exit_date.isSome) : ℚ)
        / (t.rows.length : ℚ)) * 100)) ∧
    ∀ v, hrTurnoverRate t.rows = some v → 0 ≤ v ∧ v ≤ 100 := by
  refine ⟨?_, ?_, ?_⟩
  · simp only [hrReportPage, hcol, if_true, List.mem_append, List.mem_singleton,
      List.cons_append, List.nil_append, List.mem_cons]
    tauto
  · simp [hrTurnoverRate, hn]
  · intro v hv
    simp only [hrTurnoverRate, hn, if_false, Option.some.injEq] at hv
    have hle : t.rows.countP (fun r => r.exit_date.isSome) ≤ t.rows.length :=
      List.countP_le_length _
    have hposq : (0 : ℚ) < (t.rows.length : ℚ) := by
      exact_mod_cast Nat.pos_of_ne_zero hn
    have hq0 : (0 : ℚ) ≤ ((t.rows.countP (fun r => r.exit_date.isSome) : ℚ)
        / (t.rows.length : ℚ)) * 100 := by
      have hd := div_nonneg
        (show (0:ℚ) ≤ (t.rows.countP (fun r => r.exit_date.isSome) : ℚ) by
          exact_mod_cast Nat.zero_le _) (le_of_lt hposq)
      linarith
    have hq1 : ((t.rows.countP (fun r => r.exit_date.isSome) : ℚ)
        / (t.rows.length : ℚ)) * 100 ≤ 100 := by
      have hr1 : ((t.rows.countP (fun r => r.exit_date.isSome) : ℚ)
          / (t.rows.length : ℚ)) ≤ 1 :=
        (div_le_one hposq).2 (by exact_mod_cast hle)
      linarith
    rw [← hv]
    exact ⟨roundTo1_nonneg hq0, roundTo1_le_100 hq1⟩

/-- Witness for C5 at a two-row table with one exit (rate 50.0%). -/
theorem C5_turnover_rate_formula_and_bounds_witness :
    sampleHRTable.has_exit_date = true ∧ sampleHRTable.rows.length ≠ 0 ∧
    hrTurnoverRate sampleHRTable.rows = some 50 ∧
    0 ≤ (50 : ℚ) ∧ (50 : ℚ) ≤ 100 := by
  have h50 : hrTurnoverRate sampleHRTable.rows = some 50 := by
    norm_num [hrTurnoverRate, sampleHRTable, roundTo, roundHalfEven]
  exact ⟨rfl, by decide, h50,
    (C5_turnover_rate_formula_and_bounds sampleHRTable rfl (by decide)).2.2 50 h50⟩

/-- Counterexample to C4: for the empty HR table the turnover-rate
computation performs the division `0 / 0` (numpy semantics: NaN, no
exception) and renders `"nan%"` — there is no defined fallback result
such as `"N/A"`. -/
theorem C4_empty_table_counterexample :
    hrTurnoverRate emptyHRTable.rows = none ∧
    fmtPct (hrTurnoverRate emptyHRTable.rows) = "nan%" ∧
    fmtPct (hrTurnoverRate emptyHRTable.rows) ≠ "N/A" :=
  ⟨rfl, rfl, by decide⟩

/-- C4 as amended: for an HR table with zero rows and an `Exit Date`
column, the turnover computation does not raise (numpy division of the
int64 count by the int 0 yields NaN with only a warning), and the page
reports the NaN rate, rendered `"nan%"` — not a defined fallback such as
`"N/A"`. -/
theorem C4_empty_table_turnover_nan (t : HRTable)
    (hcol : t.has_exit_date = true) (h0 : t.rows.length = 0) :
    hrTurnoverRate t.rows = none ∧
    HROutput.metricTurnoverRate none ∈ (hrReportPage t).outputs ∧
    fmtPct (hrTurnoverRate t.rows) = "nan%" := by
  have hr : hrTurnoverRate t.rows = none := by simp [hrTurnoverRate, h0]
  have hm : HROutput.metricTurnoverRate (hrTurnoverRate t.rows) ∈ (hrReportPage t).outputs := by
    simp only [hrReportPage, hcol, if_true, List.mem_append, List.mem_singleton,
      List.cons_append, List.nil_append, List.mem_cons]
    tauto
  rw [hr] at hm
  exact ⟨hr, hm, by rw [hr]; rfl⟩

/-- Witness for the amended C4 at the concrete empty table. -/
theorem C4_empty_table_turnover_nan_witness :
    emptyHRTable.has_exit_date = true ∧ emptyHRTable.rows.length = 0 ∧
    hrTurnoverRate emptyHRTable.rows = none :=
  ⟨rfl, rfl, (C4_empty_table_turnover_nan emptyHRTable rfl rfl).1⟩

/-- Counterexample to C10: for a concrete HR table containing `Turnover
Reason`, `Hours Worked` and `EmployeeNr` columns, the page's output
contains no top-5 turnover reasons table and no top-5/bottom-5 employees
ranking — `app.py` never reads those columns. -/
theorem C10_no_ranking_counterexample :
    hrTableWithReasons.has_turnover_reason = true ∧
    hrTableWithReasons.has_hours_worked = true ∧
    hrTableWithReasons.has_employee_nr = true ∧
    (hrReportPage hrTableWithReasons).outputs.all
      (fun o => !(isRankingOutput o)) = true :=
  ⟨rfl, rfl, rfl, rfl⟩

/-- C10 as amended: for every HR table whatsoever, the page's output
contains no top-5 turnover reasons table and no top-5/bottom-5
employees-by-Hours-Worked ranking; the only turnover breakdown is the
Turnover Type chart and the only use of Hours Worked is the Output Proxy
mean. -/
theorem C10_no_ranking_outputs (t : HRTable) :
    (hrReportPage t).outputs.all (fun o => !(isRankingOutput o)) = true := by
  simp only [hrReportPage]
  split_ifs <;> simp [isRankingOutput]

/-- Counterexample to C9: on a construction table whose `start_date`
column holds the text `"notadate"`, `calculate_construction_metrics`
succeeds but returns a full table different from its input — the date
columns were coerced in place (the raw text was replaced by a parsed
date or a missing marker), so removing appended columns does not recover
the original table contents. -/
theorem C9_construction_counterexample :
    exceptOk (calculate_construction_metrics consTableRawDates) = true ∧
    resultDf (calculate_construction_metrics consTableRawDates) ≠
      consTableRawDates.rows := by
  refine ⟨rfl, ?_⟩
  intro h
  have h2 : consTableRawDates.rows.map (coerceDates consTableRawDates) =
      consTableRawDates.rows := by
    have h1 : resultDf (calculate_construction_metrics consTableRawDates) =
        consTableRawDates.rows.map (coerceDates consTableRawDates) := rfl
    rw [← h1, h]
  simp [consTableRawDates, coerceDates, toDatetimeCoerce] at h2

/-- On success, the components of `calculate_construction_metrics` are
the coerced full table, the three status filters of it, and the
Completed filter with the derived metric columns. -/
theorem calc_ok_parts {c : ConsTable} {res : ConsResult}
    (hc : calculate_construction_metrics c = Except.ok res) :
    res.df = c.rows.map (coerceDates c) ∧
    res.inProgress = (c.rows.map (coerceDates c)).filter
      (fun r => r.project_status == "In Progress") ∧
    res.confirmed = (c.rows.map (coerceDates c)).filter
      (fun r => r.project_status == "Confirmed") ∧
    res.completed = ((c.rows.map (coerceDates c)).filter
      (fun r => r.project_status == "Completed")).map deriveCompletedRow := by
  unfold calculate_construction_metrics at hc
  dsimp only at hc
  split at hc
  case h_1 hE =>
    cases hc
    refine ⟨rfl, rfl, rfl, ?_⟩
    rw [List.isEmpty_iff] at hE
    rw [hE]
    rfl
  case h_2 hE =>
    split at hc
    · cases hc
    · cases hc
      exact ⟨rfl, rfl, rfl, rfl⟩

/-- C9 as amended: the financial and HR derivations append columns and
leave every source column unchanged (dropping the appended columns
recovers the original rows exactly); the construction computation also
appends its metric columns to a copy of the Completed subset, but first
coerces the present date columns of the full table in place — every
non-date source column of the full table is unchanged, while the date
columns are rewritten by parsing. -/
theorem C9_derivations_append_only
    (fdf : List FinRow) (t : HRTable) (c : ConsTable) (res : ConsResult)
    (hc : calculate_construction_metrics c = Except.ok res) :
    (calculate_financial_metrics fdf).map (fun r => r.toFinRow) = fdf ∧
    (hrReportPage t).rows = t.rows ∧
    res.df = c.rows.map (coerceDates c) ∧
    res.df.map (fun r => (r.project_name, r.project_status, r.planned_budget,
        r.actual_budget, r.labor_hours_planned, r.labor_hours_actual,
        r.client_satisfaction_score, r.project_difficulty)) =
      c.rows.map (fun r => (r.project_name, r.project_status, r.planned_budget,
        r.actual_budget, r.labor_hours_planned, r.labor_hours_actual,
        r.client_satisfaction_score, r.project_difficulty)) := by
  have hfin : (calculate_financial_metrics fdf).map (fun r => r.toFinRow) = fdf := by
    rw [calculate_financial_metrics, List.map_map]
    exact List.map_id fdf
  obtain ⟨hdf, _, _, _⟩ := calc_ok_parts hc
  refine ⟨hfin, rfl, hdf, ?_⟩
  rw [hdf, List.map_map]
  rfl

/-- Witness for the amended C9 at concrete tables. -/
theorem C9_derivations_append_only_witness :
    calculate_construction_metrics consTableRawDates = Except.ok consResRaw ∧
    (calculate_financial_metrics [sampleFinRow]).map (fun r => r.toFinRow) =
      [sampleFinRow] :=
  ⟨rfl, (C9_derivations_append_only [sampleFinRow] sampleHRTable
    consTableRawDates consResRaw rfl).1⟩

/-! ## C2 -/

/-- `.replace(0, 1)` never leaves an exact zero in an integer divisor. -/
theorem replaceZeroOneInt_ne_zero (a : Option ℤ) : replaceZeroOneInt a ≠ some 0 := by
  cases a with
  | none => simp [replaceZeroOneInt]
  | some v =>
    show some (if v = 0 then 1 else v) ≠ some 0
    split_ifs with h
    · simp
    · simp [h]

/-- `.replace(0, 1)` never leaves an exact zero in a numeric divisor. -/
theorem replaceZeroOne_ne_zero (a : Option ℚ) : replaceZeroOne a ≠ some 0 := by
  cases a with
  | none => simp [replaceZeroOne]
  | some v =>
    show some (if v = 0 then 1 else v) ≠ some 0
    split_ifs with h
    · simp
    · simp [h]

/-- C2: on every row of the Completed subset, the three ratio metrics
are computed with the divisor passed through `.replace(0, 1)` — an exact
zero `planned_duration`, `labor_hours_actual` or `planned_budget` is
replaced by 1 — so the divisor is never an exact zero and the division
cannot fault; in particular a row whose `planned_duration` is 0 gets its
`schedule_variance` computed with denominator 1. -/
theorem C2_zero_divisor_replaced_by_one (c : ConsTable) (res : ConsResult)
    (hc : calculate_construction_metrics c = Except.ok res) (r : CompRow)
    (hr : r ∈ res.completed) :
    r.schedule_variance =
      opMul (opDiv (intCell (opSubInt r.planned_duration r.actual_duration))
        (intCell (replaceZeroOneInt r.planned_duration))) (some 100) ∧
    r.labor_productivity =
      opMul (opDiv r.labor_hours_planned (replaceZeroOne r.labor_hours_actual))
        (some 100) ∧
    r.budget_variance =
      opMul (opDiv (opSub r.actual_budget r.planned_budget)
        (replaceZeroOne r.planned_budget)) (some 100) ∧
    replaceZeroOneInt r.planned_duration ≠ some 0 ∧
    replaceZeroOne r.labor_hours_actual ≠ some 0 ∧
    replaceZeroOne r.planned_budget ≠ some 0 ∧
    (r.planned_duration = some 0 →
      r.schedule_variance =
        opMul (opDiv (intCell (opSubInt r.planned_duration r.actual_duration))
          (intCell (some 1))) (some 100)) := by
  obtain ⟨_, _, _, hcomp⟩ := calc_ok_parts hc
  rw [hcomp] at hr
  rcases List.mem_map.1 hr with ⟨r0, _, rfl⟩
  refine ⟨rfl, rfl, rfl, replaceZeroOneInt_ne_zero _, replaceZeroOne_ne_zero _,
    replaceZeroOne_ne_zero _, ?_⟩
  intro h0
  have hsv : (deriveCompletedRow r0).schedule_variance =
      opMul (opDiv (intCell (opSubInt (deriveCompletedRow r0).planned_duration
        (deriveCompletedRow r0).actual_duration))
        (intCell (replaceZeroOneInt (deriveCompletedRow r0).planned_duration)))
        (some 100) := rfl
  rw [hsv, h0]
  rfl

/-- Witness for C2 at a table whose one Completed row has zero planned
duration. -/
theorem C2_zero_divisor_replaced_by_one_witness :
    calculate_construction_metrics consTableCompleted = Except.ok consResCompleted ∧
    deriveCompletedRow (coerceDates consTableCompleted consRowCompleted) ∈
      consResCompleted.completed ∧
    replaceZeroOneInt (deriveCompletedRow
      (coerceDates consTableCompleted consRowCompleted)).planned_duration ≠ some 0 :=
  ⟨rfl, List.mem_singleton.2 rfl,
   (C2_zero_divisor_replaced_by_one consTableCompleted consResCompleted rfl
     (deriveCompletedRow (coerceDates consTableCompleted consRowCompleted))
     (List.mem_singleton.2 rfl)).2.2.2.1⟩

/-- C6: the construction computation partitions the rows into three
pairwise-disjoint subsets by exact equality of `project_status` with
"Completed", "In Progress" and "Confirmed": each subset's length equals
the number of input rows carrying exactly that status, every member of a
subset carries that subset's status (so no row object can lie in two
subsets), a row with any other status value lies in none of the three,
and the full returned table keeps all rows. -/
theorem C6_status_partition (c : ConsTable) (res : ConsResult)
    (hc : calculate_construction_metrics c = Except.ok res) :
    res.df.length = c.rows.length ∧
    res.completed.length = c.rows.countP (fun r => r.project_status == "Completed") ∧
    res.inProgress.length = c.rows.countP (fun r => r.project_status == "In Progress") ∧
    res.confirmed.length = c.rows.countP (fun r => r.project_status == "Confirmed") ∧
    (∀ r ∈ res.completed, r.project_status = "Completed") ∧
    (∀ r ∈ res.inProgress, r.project_status = "In Progress") ∧
    (∀ r ∈ res.confirmed, r.project_status = "Confirmed") ∧
    (∀ r ∈ res.inProgress, r ∉ res.confirmed) ∧
    (∀ r ∈ res.df, r.project_status ≠ "Completed" → r.project_status ≠ "In Progress" →
      r.project_status ≠ "Confirmed" →
      r ∉ res.inProgress ∧ r ∉ res.confirmed ∧ ∀ p ∈ res.completed, p.toConsRow ≠ r) := by
  obtain ⟨hdf, hip, hcf, hcomp⟩ := calc_ok_parts hc
  have hmemC : ∀ r ∈ res.completed, r.project_status = "Completed" := by
    intro r hr
    rw [hcomp] at hr
    rcases List.mem_map.1 hr with ⟨r0, hr0, rfl⟩
    have := (List.mem_filter.1 hr0).2
    simpa using this
  have hmemI : ∀ r ∈ res.inProgress, r.project_status = "In Progress" := by
    intro r hr
    rw [hip] at hr
    have := (List.mem_filter.1 hr).2
    simpa using this
  have hmemF : ∀ r ∈ res.confirmed, r.project_status = "Confirmed" := by
    intro r hr
    rw [hcf] at hr
    have := (List.mem_filter.1 hr).2
    simpa using this
  refine ⟨?_, ?_, ?_, ?_, hmemC, hmemI, hmemF, ?_, ?_⟩
  · rw [hdf, List.length_map]
  · rw [hcomp, List.length_map, ← List.countP_eq_length_filter, List.countP_map]
    rfl
  · rw [hip, ← List.countP_eq_length_filter, List.countP_map]
    rfl
  · rw [hcf, ← List.countP_eq_length_filter, List.countP_map]
    rfl
  · intro r hr hr2
    have h1 := hmemI r hr
    have h2 := hmemF r hr2
    rw [h1] at h2
    exact absurd h2 (by decide)
  · intro r _ hnc hni hnf
    refine ⟨fun hmem => hni (hmemI r hmem), fun hmem => hnf (hmemF r hmem), ?_⟩
    intro p hp hpr
    apply hnc
    rw [← hpr]
    exact hmemC p hp

/-- Witness for C6 at the four-status table. -/
theorem C6_status_partition_witness :
    calculate_construction_metrics consTableMixed = Except.ok consResMixed ∧
    consResMixed.completed.length =
      consTableMixed.rows.countP (fun r => r.project_status == "Completed") :=
  ⟨rfl, (C6_status_partition consTableMixed consResMixed rfl).2.1⟩

/-- Counterexample to C3: with the optional `labor_hours_actual` column
absent and a Completed row present, `calculate_construction_metrics`
raises the `KeyError` for that column (caught only at the page boundary
as a generic error) — the dependent metric is not silently omitted, and
no metrics at all are produced. -/
theorem C3_missing_column_counterexample :
    consTableMissingLabor.rows.countP
      (fun r => r.project_status == "Completed") ≠ 0 ∧
    calculate_construction_metrics consTableMissingLabor =
      Except.error "labor_hours_actual" :=
  ⟨by decide, rfl⟩

/-- C3 as amended: when the Completed subset is nonempty and any of the
seven columns the Completed-subset metrics read (`end_date`,
`start_date`, `actual_end_date`, `labor_hours_planned`,
`labor_hours_actual`, `actual_budget`, `planned_budget`) is absent, the
construction computation fails with a missing-column error instead of
silently omitting the dependent metrics: no partition and no metric of
any kind is returned. -/
theorem C3_missing_optional_column_errors (c : ConsTable)
    (hcompl : c.rows.countP (fun r => r.project_status == "Completed") ≠ 0)
    (hmiss : (c.has_end_date && c.has_start_date && c.has_actual_end_date &&
      c.has_labor_hours_planned && c.has_labor_hours_actual &&
      c.has_actual_budget && c.has_planned_budget) = false) :
    exceptOk (calculate_construction_metrics c) = false := by
  unfold calculate_construction_metrics
  dsimp only
  split
  case h_1 hE =>
    exfalso
    apply hcompl
    rw [List.isEmpty_iff] at hE
    have hlen := congrArg List.length hE
    rw [← List.countP_eq_length_filter, List.countP_map] at hlen
    exact hlen
  case h_2 hE =>
    cases hM : firstMissingCol c with
    | some s => rfl
    | none =>
      exfalso
      unfold firstMissingCol at hM
      split_ifs at hM with h1 h2 h3 h4 h5 h6 h7
      simp_all

/-- Witness for the amended C3 at the table missing
`labor_hours_actual`. -/
theorem C3_missing_optional_column_errors_witness :
    consTableMissingLabor.rows.countP
      (fun r => r.project_status == "Completed") ≠ 0 ∧
    exceptOk (calculate_construction_metrics consTableMissingLabor) = false :=
  ⟨by decide,
   C3_missing_optional_column_errors consTableMissingLabor (by decide) (by decide)⟩

/-- `colSum` on a present head cell. -/
theorem colSum_cons_some (x : ℚ) (l : List (Option ℚ)) :
    colSum (some x :: l) = x + colSum l := by
  simp [colSum]

/-- `colSum` skips a missing head cell. -/
theorem colSum_cons_none (l : List (Option ℚ)) :
    colSum (none :: l) = colSum l := by
  simp [colSum]

/-- `opAdd` on two present cells. -/
theorem opAdd_some (x y : ℚ) : opAdd (some x) (some y) = some (x + y) := rfl

/-- Counterexample to C7: for the one-row table whose `salaries` cell is
missing, `sum(operating_expenses)` is 0 (the NaN row is skipped) while
`sum(salaries)+sum(rent)+sum(marketing)+sum(utilities)` is 5 — the
aggregate equality fails on tables with missing cells because pandas
column sums skip NaN but the row-wise addition propagates it. -/
theorem C7_sum_counterexample :
    colSum ((calculate_financial_metrics [finRowMissingCell]).map
      (fun r => r.operating_expenses)) ≠
    colSum ([finRowMissingCell].map (fun r => r.salaries)) +
      colSum ([finRowMissingCell].map (fun r => r.rent)) +
      colSum ([finRowMissingCell].map (fun r => r.marketing)) +
      colSum ([finRowMissingCell].map (fun r => r.utilities)) := by
  norm_num [calculate_financial_metrics, deriveFinRow, finRowMissingCell,
    colSum, opAdd, opSub, opMul, opDiv, List.filterMap_cons]

/-- C7 as amended: for every financial table in which no row has a
missing value in `salaries`, `rent`, `marketing` or `utilities`, the sum
of the derived `operating_expenses` column equals
`sum(salaries) + sum(rent) + sum(marketing) + sum(utilities)` exactly
(over the exact rational embedding of the float arithmetic). -/
theorem C7_operating_expenses_sum_exact (df : List FinRow)
    (h : ∀ r ∈ df, r.salaries.isSome ∧ r.rent.isSome ∧
      r.marketing.isSome ∧ r.utilities.isSome) :
    colSum ((calculate_financial_metrics df).map (fun r => r.operating_expenses)) =
      colSum (df.map (fun r => r.salaries)) + colSum (df.map (fun r => r.rent)) +
      colSum (df.map (fun r => r.marketing)) + colSum (df.map (fun r => r.utilities)) := by
  induction df with
  | nil => simp [calculate_financial_metrics, colSum]
  | cons r rs ih =>
    obtain ⟨hs, hr, hm, hu⟩ := h r (List.mem_cons_self r rs)
    rcases Option.isSome_iff_exists.1 hs with ⟨sv, hsv⟩
    rcases Option.isSome_iff_exists.1 hr with ⟨rv, hrv⟩
    rcases Option.isSome_iff_exists.1 hm with ⟨mv, hmv⟩
    rcases Option.isSome_iff_exists.1 hu with ⟨uv, huv⟩
    have ih2 := ih (fun x hx => h x (List.mem_cons_of_mem r hx))
    simp only [calculate_financial_metrics, List.map_cons] at ih2 ⊢
    have hope : (deriveFinRow r).operating_expenses =
        opAdd (opAdd (opAdd r.salaries r.rent) r.marketing) r.utilities := rfl
    rw [hope, hsv, hrv, hmv, huv, opAdd_some, opAdd_some, opAdd_some,
      colSum_cons_some, colSum_cons_some, colSum_cons_some, colSum_cons_some,
      colSum_cons_some, ih2]
    ring

/-- Witness for the amended C7 at the financial page's own sample row. -/
theorem C7_operating_expenses_sum_exact_witness :
    (∀ r ∈ [sampleFinRow], r.salaries.isSome ∧ r.rent.isSome ∧
      r.marketing.isSome ∧ r.utilities.isSome) ∧
    colSum ((calculate_financial_metrics [sampleFinRow]).map
      (fun r => r.operating_expenses)) =
      colSum ([sampleFinRow].map (fun r => r.salaries)) +
      colSum ([sampleFinRow].map (fun r => r.rent)) +
      colSum ([sampleFinRow].map (fun r => r.marketing)) +
      colSum ([sampleFinRow].map (fun r => r.utilities)) := by
  have hp : ∀ r ∈ [sampleFinRow], r.salaries.isSome ∧ r.rent.isSome ∧
      r.marketing.isSome ∧ r.utilities.isSome := by
    intro r hrr
    rw [List.mem_singleton.1 hrr]
    exact ⟨rfl, rfl, rfl, rfl⟩
  exact ⟨hp, C7_operating_expenses_sum_exact [sampleFinRow] hp⟩
